import Mathlib

/-!
Shallow embedding of the tracedb storage adapter
(`db/tracedb/adapter.go` of saffat-in/trace) and proofs about its
operations.

The adapter delegates to the external embedded database
`github.com/saffat-in/tracedb`, which is not part of this repository.
Where the behaviour of that collaborator decides a property, it is
modelled from the specification (IndexStore / BatchWriter / IDGenerator
semantics); every such definition carries a doc comment starting with
"Modelled from the spec:".  All control flow of the adapter itself
(nil-handle checks, the iteration loop of Get, the error handling of
Open) is translated directly from the Go source.
-/

namespace Trace

/-- Go `error` values, modelled by their message string (`errors.New`). -/
abbrev Err := String

/-- Go byte slices (`[]byte`), modelled as lists of byte values. -/
abbrev Bytes := List Nat

/-- A stored message entry: contract namespace, topic, message id and
payload, mirroring `tracedb/message.Entry` as used by the adapter. -/
structure Entry where
  contract : Nat
  topic : Bytes
  id : Bytes
  payload : Bytes
deriving DecidableEq, Repr

/-- Modelled from the spec: the contents of the underlying database
handle (`*tracedb.DB`), kept as a list of entries in most-recent-first
(descending id) order, as required of IndexStore range scans. -/
abbrev DBState := List Entry

/-- The adapter struct: an optional database handle (`db *tracedb.DB`,
`none` standing for a nil pointer) and the `version` field. -/
structure Adapter where
  db : Option DBState
  version : Int
deriving DecidableEq, Repr

/-- `defaultDatabase` constant of the source. -/
def defaultDatabase : String := "trace"

/-- `maxResults` constant of the source ("Maximum number of records to
return").  Note that the source declares it but never applies it. -/
def maxResults : Nat := 1024

/-- `IsOpen` returns true if a database handle is held. -/
def IsOpen (a : Adapter) : Bool := a.db.isSome

/-- The parsed configuration (`configType`): directory and value
directory. -/
structure configType where
  dir : String
  valueDir : String
deriving DecidableEq, Repr

/-- `adapter.Open`, translated from the source.  The outcomes of the
external calls are passed in as arguments: `parseRes` is the result of
`json.Unmarshal` on the config string, `mkdirRes` gives the outcome of
`os.MkdirAll` for a path, and `openRes` gives the outcome of
`tracedb.Open` for a path.  As in the source, a `mkdirRes` failure is
only logged (its value is dropped), while a parse failure or an
`openRes` failure is returned. -/
def adapterOpen (a : Adapter) (parseRes : Except Err configType)
    (mkdirRes : String → Option Err)
    (openRes : String → Except Err DBState) : Adapter × Option Err :=
  match a.db with
  | some _ => (a, some "tracedb adapter is already connected")
  | none =>
    match parseRes with
    | .error e => (a, some ("tracedb adapter failed to parse config: " ++ e))
    | .ok config =>
      let _ := mkdirRes config.dir
      match openRes (config.dir ++ "/" ++ defaultDatabase) with
      | .error e => (a, some e)
      | .ok db => ({ a with db := some db }, none)

/-- `adapter.Close`, translated from the source: if a handle is held it
is closed (outcome `closeRes`), the handle set to nil and the version to
-1; otherwise nothing happens and a nil error is returned. -/
def adapterClose (a : Adapter) (closeRes : DBState → Option Err) :
    Adapter × Option Err :=
  match a.db with
  | none => (a, none)
  | some db => (⟨none, -1⟩, closeRes db)

/-- Outcome of an adapter operation that returns only an error in Go:
either the Go runtime panics (nil handle dereference) or the call
returns, with the updated adapter state and the returned error. -/
inductive OpOutcome where
  | panics
  | returns (a : Adapter) (err : Option Err)
deriving DecidableEq, Repr

/-- `adapter.Put`, translated from the source.  The source calls
`a.db.Batch` with no nil check, so a nil handle is dereferenced and the
Go runtime panics.  Modelled from the spec for the open case: the
single-entry batch commits atomically, prepending the new entry (the
underlying id generator supplies `newId`); commit faults are out of
scope, so the batch write returns a nil error. -/
def adapterPut (a : Adapter) (contract : Nat) (topic newId payload : Bytes) :
    OpOutcome :=
  match a.db with
  | none => .panics
  | some db => .returns ⟨some (⟨contract, topic, newId, payload⟩ :: db), a.version⟩ none

/-- `adapter.PutWithID`, translated from the source; like `adapterPut`
but with the caller-supplied message id used verbatim. -/
def adapterPutWithID (a : Adapter) (contract : Nat)
    (topic messageId payload : Bytes) : OpOutcome :=
  match a.db with
  | none => .panics
  | some db => .returns ⟨some (⟨contract, topic, messageId, payload⟩ :: db), a.version⟩ none

/-- Modelled from the spec: `Batch.DeleteEntry` of the external
database removes the entry keyed by (contract, topic, id) if present and
is a no-op otherwise. -/
def deleteEntry (db : DBState) (contract : Nat) (topic messageId : Bytes) :
    DBState :=
  db.filter fun e => !(e.contract == contract && e.topic == topic && e.id == messageId)

/-- `adapter.Delete`, translated from the source: a single-operation
batch whose write error is returned.  As in `adapterPut`, the nil handle
is dereferenced without a check, and the modelled batch commit does not
fault. -/
def adapterDelete (a : Adapter) (contract : Nat) (topic messageId : Bytes) :
    OpOutcome :=
  match a.db with
  | none => .panics
  | some db => .returns ⟨some (deleteEntry db contract topic messageId), a.version⟩ none

/-- The iterator returned by `db.Items`.  Modelled from the spec: the
external iterator yields a finite sequence of item payloads and may then
report a scan error; at the error position `Valid()` still holds and
`Error()` returns the error (the convention under which the in-loop
error check of the source can fire). -/
structure Iter where
  items : List Bytes
  scanErr : Option Err
deriving DecidableEq, Repr

/-- Outcome of `adapter.Get`: a Go runtime panic (nil iterator
dereference) or a normal return of the matches slice and the error. -/
inductive GetOutcome where
  | panics
  | returns (matched : List Bytes) (err : Option Err)
deriving DecidableEq, Repr

/-- The iteration loop of `adapter.Get`, translated from the source:
`for it.First(); it.Valid(); it.Next()`, with `it.Error()` checked at
the top of each iteration.  When the error check fires the source
executes `return nil, err`, discarding the matches collected so far;
when the iterator is exhausted without error the source executes
`return matches, nil`. -/
def getLoop : List Bytes → Option Err → List Bytes → List Bytes × Option Err
  | [], none, acc => (acc, none)
  | [], some e, _ => ([], some e)
  | v :: rest, serr, acc => getLoop rest serr (acc ++ [v])

/-- The body of `adapter.Get` after the `db.Items` call, translated from
the source.  `itRes` and `_itemsErr` are the two results of `db.Items`;
the source never inspects `_itemsErr`, and unconditionally calls
`it.First()` on the iterator, so a nil iterator (`none`) is dereferenced
and the Go runtime panics. -/
def getFromItems (itRes : Option Iter) (_itemsErr : Option Err) : GetOutcome :=
  match itRes with
  | none => .panics
  | some it =>
    let r := getLoop it.items it.scanErr []
    .returns r.1 r.2

/-- Go conversion `uint32(limit)` applied to an `int`. -/
def goUInt32 (n : Int) : Nat := (n % 4294967296).toNat

/-- Modelled from the spec: `db.Items` of the external database performs
the IndexStore range scan — at most `lim` most-recent entries of the
given (contract, topic), in stored (descending id) order — and returns a
valid iterator with no error. -/
def tracedbItems (db : DBState) (contract : Nat) (topic : Bytes) (lim : Nat) :
    Option Iter × Option Err :=
  (some ⟨((db.filter fun e => e.contract == contract && e.topic == topic).take lim).map
    Entry.payload, none⟩, none)

/-- `adapter.Get`, translated from the source: the query is built with
`Limit: uint32(limit)` — the `limit` argument is passed through
unchanged, without any clamping to `maxResults` — and the body then runs
`getFromItems` on the result of `db.Items`.  A nil database handle is
dereferenced by the `a.db.Items` call itself. -/
def adapterGet (a : Adapter) (contract : Nat) (topic : Bytes) (limit : Int) :
    GetOutcome :=
  match a.db with
  | none => .panics
  | some db =>
    let r := tracedbItems db contract topic (goUInt32 limit)
    getFromItems r.1 r.2

/-- Modelled from the spec: `message.GenID` of the external tracedb
library (not under src/) derives an identifier from the entry; per the
spec no identity can be derived exactly when contract, topic and payload
are all empty, in which case a nil id results; otherwise a (non-empty)
id derived from the inputs is produced. -/
def mGenID (contract : Nat) (topic payload : Bytes) : Option Bytes :=
  if contract = 0 ∧ topic = [] ∧ payload = [] then none
  else some (contract :: (topic ++ payload))

/-- `adapter.GenID`, translated from the source: it delegates to
`message.GenID` of the external library and maps a nil id to the error
"Key is empty.". -/
def adapterGenID (contract : Nat) (topic payload : Bytes) :
    Option Bytes × Option Err :=
  match mGenID contract topic payload with
  | none => (none, some "Key is empty.")
  | some i => (some i, none)

/-- Number of matches returned by a `Get` outcome. -/
def matchCount : GetOutcome → Nat
  | .panics => 0
  | .returns m _ => m.length

/-- A store holding 1025 entries under contract 0, topic `[]`, with
distinct ids and payloads. -/
def bigDb : DBState := (List.range 1025).map fun i => ⟨0, [], [i], [i]⟩

/-! ## Helper lemmas -/

/-- The Get loop without a scan error collects every item. -/
theorem getLoop_no_err (items acc : List Bytes) :
    getLoop items none acc = (acc ++ items, none) := by
  induction items generalizing acc with
  | nil => simp [getLoop]
  | cons v rest ih => simp [getLoop, ih]

/-- The Get loop with a scan error ends by returning nil and the error. -/
theorem getLoop_err (items acc : List Bytes) (e : Err) :
    getLoop items (some e) acc = ([], some e) := by
  induction items generalizing acc with
  | nil => simp [getLoop]
  | cons v rest ih => simp [getLoop, ih]

/-! ## Claim theorems -/

/-- C6: calling Open on an adapter that already holds a database handle
fails with the already-connected error and leaves the adapter state
(handle and version) unchanged, whatever the config and the outcomes of
the external calls. -/
theorem open_already_open (db : DBState) (v : Int)
    (pr : Except Err configType) (mk : String → Option Err)
    (op : String → Except Err DBState) :
    adapterOpen ⟨some db, v⟩ pr mk op =
      (⟨some db, v⟩, some "tracedb adapter is already connected") := rfl

/-- C7: calling Close on an adapter with no database handle is a no-op
that returns a nil error and leaves the adapter state unchanged. -/
theorem close_idempotent_when_closed (v : Int) (cr : DBState → Option Err) :
    adapterClose ⟨none, v⟩ cr = (⟨none, v⟩, none) := rfl

/-- C3: the error returned by `db.Items` is never inspected by Get: the
outcome is identical whether that error is present or absent, and when
the iterator is nil the call panics (nil dereference) instead of
returning the error. -/
theorem get_ignores_items_error (itRes : Option Iter) (e : Err) :
    getFromItems itRes (some e) = getFromItems itRes none ∧
    getFromItems none (some e) = GetOutcome.panics := by
  cases itRes <;> exact ⟨rfl, rfl⟩

/-- C2 counterexample: with an iterator that yields one payload and then
reports an error, Get returns the empty (nil) sequence together with the
error — not, as claimed, the partial sequence collected so far. -/
theorem get_discards_partial_cex :
    getFromItems (some ⟨[[7]], some "disk error"⟩) none =
      GetOutcome.returns [] (some "disk error") ∧
    getFromItems (some ⟨[[7]], some "disk error"⟩) none ≠
      GetOutcome.returns [[7]] (some "disk error") := by
  refine ⟨rfl, ?_⟩
  decide

/-- C2 amended: when an error is encountered mid-scan, Get discards the
payloads already collected and returns the empty (nil) sequence together
with that error. -/
theorem get_returns_nil_on_scan_error (items : List Bytes) (e : Err)
    (ierr : Option Err) :
    getFromItems (some ⟨items, some e⟩) ierr =
      GetOutcome.returns [] (some e) := by
  simp [getFromItems, getLoop_err]

/-- C4 counterexample: invoking Put, PutWithID, Get or Delete on an
adapter that is not open (nil database handle) panics via a nil-handle
dereference instead of returning an error. -/
theorem ops_panic_when_closed_cex :
    adapterPut ⟨none, 0⟩ 1 [] [] [] = OpOutcome.panics ∧
    adapterPutWithID ⟨none, 0⟩ 1 [] [] [] = OpOutcome.panics ∧
    adapterGet ⟨none, 0⟩ 1 [] 10 = GetOutcome.panics ∧
    adapterDelete ⟨none, 0⟩ 1 [] [] = OpOutcome.panics :=
  ⟨rfl, rfl, rfl, rfl⟩

/-- C4 amended: on an open adapter, Put, PutWithID, Get and Delete each
return a result or a single error value (and, with the modelled
fault-free store, do not panic); but on a non-open adapter each of them
dereferences the nil database handle and panics rather than returning an
error. -/
theorem ops_error_or_panic (a : Adapter) (c : Nat) (t i p : Bytes)
    (lim : Int) :
    (a.db = none →
      adapterPut a c t i p = OpOutcome.panics ∧
      adapterPutWithID a c t i p = OpOutcome.panics ∧
      adapterGet a c t lim = GetOutcome.panics ∧
      adapterDelete a c t i = OpOutcome.panics) ∧
    (∀ db, a.db = some db →
      (∃ a1, adapterPut a c t i p = OpOutcome.returns a1 none) ∧
      (∃ a2, adapterPutWithID a c t i p = OpOutcome.returns a2 none) ∧
      (∃ m e2, adapterGet a c t lim = GetOutcome.returns m e2) ∧
      (∃ a3, adapterDelete a c t i = OpOutcome.returns a3 none)) := by
  obtain ⟨odb, v⟩ := a
  constructor
  · rintro rfl
    exact ⟨rfl, rfl, rfl, rfl⟩
  · rintro db rfl
    refine ⟨⟨_, rfl⟩, ⟨_, rfl⟩,
      ⟨((db.filter fun e => e.contract == c && e.topic == t).take
          (goUInt32 lim)).map Entry.payload, none, ?_⟩, ⟨_, rfl⟩⟩
    simp [adapterGet, getFromItems, tracedbItems, getLoop_no_err]

/-- C4 witness: the amended statement at concrete inputs — Put panics on
a closed adapter and returns with a nil error on an open one. -/
theorem ops_error_or_panic_witness :
    adapterPut ⟨none, 3⟩ 1 [2] [3] [4] = OpOutcome.panics ∧
    (∃ a1, adapterPut ⟨some [], 0⟩ 1 [2] [3] [4] = OpOutcome.returns a1 none) :=
  ⟨((ops_error_or_panic ⟨none, 3⟩ 1 [2] [3] [4] 5).1 rfl).1,
   ((ops_error_or_panic ⟨some [], 0⟩ 1 [2] [3] [4] 5).2 [] rfl).1⟩

/-- C8: GenID returns the empty-key error exactly when contract, topic
and payload are all empty; on any other input it returns a non-nil id
with a nil error; and it never returns both a nil id and a nil error. -/
theorem genID_empty_key (c : Nat) (t p : Bytes) :
    ((adapterGenID c t p).2 = some "Key is empty." ↔
      (c = 0 ∧ t = [] ∧ p = [])) ∧
    (¬(c = 0 ∧ t = [] ∧ p = []) →
      ∃ i, adapterGenID c t p = (some i, none)) ∧
    adapterGenID c t p ≠ (none, none) := by
  by_cases h : c = 0 ∧ t = [] ∧ p = [] <;>
    simp [adapterGenID, mGenID, h]

/-- C8 witness: the theorem at a non-empty concrete input. -/
theorem genID_empty_key_witness :
    ∃ i, adapterGenID 1 [] [] = (some i, none) :=
  (genID_empty_key 1 [] []).2.1 (by simp)

/-- C5: on an adapter with no handle, the result of Open does not depend
on the outcome of the directory-creation call (a failure there is only
logged), and Open returns a nil error exactly when the config parses and
the subsequent database-open call succeeds; in every other case (parse
failure or database-open failure) the error is returned. -/
theorem open_error_conditions (a : Adapter) (h : a.db = none)
    (pr : Except Err configType) (mk mk2 : String → Option Err)
    (op : String → Except Err DBState) :
    adapterOpen a pr mk op = adapterOpen a pr mk2 op ∧
    ((adapterOpen a pr mk op).2 = none ↔
      ∃ cfg db, pr = Except.ok cfg ∧
        op (cfg.dir ++ "/" ++ defaultDatabase) = Except.ok db) := by
  obtain ⟨odb, v⟩ := a
  simp only at h
  subst h
  cases pr with
  | error e => simp [adapterOpen]
  | ok cfg =>
    rcases hop : op (cfg.dir ++ "/" ++ defaultDatabase) with e | db <;>
      simp [adapterOpen, hop]

/-- C5 witness: the theorem at concrete inputs — a failing mkdir outcome
versus a succeeding one gives the same result, and with a parsed config
and a successful database open, Open succeeds. -/
theorem open_error_conditions_witness :
    adapterOpen ⟨none, 0⟩ (Except.ok ⟨"d", ""⟩) (fun _ => some "mkdir failed")
        (fun _ => Except.ok []) =
      adapterOpen ⟨none, 0⟩ (Except.ok ⟨"d", ""⟩) (fun _ => none)
        (fun _ => Except.ok []) :=
  (open_error_conditions ⟨none, 0⟩ rfl (Except.ok ⟨"d", ""⟩)
    (fun _ => some "mkdir failed") (fun _ => none) (fun _ => Except.ok [])).1

/-- Filtering out a key that matches no entry leaves the store
unchanged. -/
theorem deleteEntry_no_match (db : DBState) (c : Nat) (t i : Bytes)
    (h : ∀ e ∈ db, ¬(e.contract = c ∧ e.topic = t ∧ e.id = i)) :
    deleteEntry db c t i = db := by
  induction db with
  | nil => rfl
  | cons a rest ih =>
    have ha : (!(a.contract == c && a.topic == t && a.id == i)) = true := by
      have hm := h a (by simp)
      cases hc : (a.contract == c && a.topic == t && a.id == i) with
      | false => simp
      | true =>
        exfalso
        simp only [Bool.and_eq_true, beq_iff_eq] at hc
        exact hm ⟨hc.1.1, hc.1.2, hc.2⟩
    have hr : deleteEntry rest c t i = rest :=
      ih fun e he => h e (by simp [he])
    simp only [deleteEntry, List.filter_cons, ha, if_true] at *
    rw [hr]

/-- C9: Delete on an open adapter, with a (contract, topic, id) triple
that identifies no stored entry, returns a nil error and leaves the
store (and the adapter state) unchanged. -/
theorem delete_nonexistent_noop (db : DBState) (v : Int) (c : Nat)
    (t i : Bytes)
    (h : ∀ e ∈ db, ¬(e.contract = c ∧ e.topic = t ∧ e.id = i)) :
    adapterDelete ⟨some db, v⟩ c t i = OpOutcome.returns ⟨some db, v⟩ none := by
  simp only [adapterDelete, deleteEntry_no_match db c t i h]

/-- C9 witness: deleting a key absent from a concrete one-entry store. -/
theorem delete_nonexistent_noop_witness :
    adapterDelete ⟨some [⟨1, [2], [3], [4]⟩], 0⟩ 9 [2] [3] =
      OpOutcome.returns ⟨some [⟨1, [2], [3], [4]⟩], 0⟩ none :=
  delete_nonexistent_noop [⟨1, [2], [3], [4]⟩] 0 9 [2] [3] (by decide)

/-- C10: IsOpen holds exactly when a database handle is held: it is
false whenever the handle is absent (in particular on a fresh adapter),
Open can succeed only from that closed state and leaves IsOpen true,
Close always leaves IsOpen false, and a returning Put or Delete finds
and leaves IsOpen true. -/
theorem isOpen_invariant :
    (∀ v : Int, IsOpen ⟨none, v⟩ = false) ∧
    (∀ a pr mk op, (adapterOpen a pr mk op).2 = none →
      IsOpen a = false ∧ IsOpen (adapterOpen a pr mk op).1 = true) ∧
    (∀ a cr, IsOpen (adapterClose a cr).1 = false) ∧
    (∀ a c t i p a1 e1, adapterPut a c t i p = OpOutcome.returns a1 e1 →
      IsOpen a = true ∧ IsOpen a1 = true) ∧
    (∀ a c t i a2 e2, adapterDelete a c t i = OpOutcome.returns a2 e2 →
      IsOpen a = true ∧ IsOpen a2 = true) := by
  refine ⟨fun v => rfl, ?_, ?_, ?_, ?_⟩
  · rintro ⟨odb, v⟩ pr mk op h
    cases odb with
    | some db => simp [adapterOpen] at h
    | none =>
      cases pr with
      | error e => simp [adapterOpen] at h
      | ok cfg =>
        rcases hop : op (cfg.dir ++ "/" ++ defaultDatabase) with e | db
        · simp [adapterOpen, hop] at h
        · exact ⟨rfl, by simp [adapterOpen, hop, IsOpen]⟩
  · rintro ⟨odb, v⟩ cr
    cases odb <;> rfl
  · rintro ⟨odb, v⟩ c t i p a1 e1 h
    cases odb with
    | none => simp [adapterPut] at h
    | some db => cases h; exact ⟨rfl, rfl⟩
  · rintro ⟨odb, v⟩ c t i a2 e2 h
    cases odb with
    | none => simp [adapterDelete] at h
    | some db => cases h; exact ⟨rfl, rfl⟩

/-- C10 witness: a successful concrete Open starts from a closed state
and ends with IsOpen true. -/
theorem isOpen_invariant_witness :
    IsOpen ((adapterOpen ⟨none, 0⟩ (Except.ok ⟨"d", ""⟩) (fun _ => none)
      (fun _ => Except.ok [])).1) = true :=
  (isOpen_invariant.2.1 ⟨none, 0⟩ (Except.ok ⟨"d", ""⟩) (fun _ => none)
    (fun _ => Except.ok []) rfl).2

/-- Every entry of `bigDb` matches the (contract 0, topic `[]`) scan, so
the filter of the modelled range scan keeps all of it. -/
theorem bigDb_filter_all :
    (bigDb.filter fun e => e.contract == 0 && e.topic == ([] : Bytes)) = bigDb := by
  apply List.filter_eq_self.mpr
  intro e he
  simp only [bigDb, List.mem_map, List.mem_range] at he
  obtain ⟨j, hj, rfl⟩ := he
  rfl

/-- Get on `bigDb` returns the first `uint32(limit)` payloads. -/
theorem adapterGet_bigDb (lim : Int) :
    adapterGet ⟨some bigDb, 0⟩ 0 [] lim =
      GetOutcome.returns ((bigDb.take (goUInt32 lim)).map Entry.payload) none := by
  simp only [adapterGet, tracedbItems, getFromItems, bigDb_filter_all,
    getLoop_no_err, List.nil_append]

/-- C1: Get does not clamp the limit to `maxResults`: on a store with
1025 matching entries, Get with limit 2000 returns 1025 payloads —
exceeding `maxResults` = 1024 — while Get with limit 1024 returns 1024,
so the two calls do not return the same result. -/
theorem get_limit_not_clamped :
    matchCount (adapterGet ⟨some bigDb, 0⟩ 0 [] 2000) = maxResults + 1 ∧
    matchCount (adapterGet ⟨some bigDb, 0⟩ 0 [] 1024) = maxResults ∧
    adapterGet ⟨some bigDb, 0⟩ 0 [] 2000 ≠ adapterGet ⟨some bigDb, 0⟩ 0 [] 1024 := by
  have hlen : bigDb.length = 1025 := by
    simp [bigDb]
  have h2000 : matchCount (adapterGet ⟨some bigDb, 0⟩ 0 [] 2000) = 1025 := by
    rw [adapterGet_bigDb]
    simp [matchCount, hlen, goUInt32]
  have h1024 : matchCount (adapterGet ⟨some bigDb, 0⟩ 0 [] 1024) = 1024 := by
    rw [adapterGet_bigDb]
    simp [matchCount, hlen, goUInt32]
  refine ⟨h2000, h1024, fun heq => ?_⟩
  have hc := congrArg matchCount heq
  rw [h2000, h1024] at hc
  exact absurd hc (by norm_num)

end Trace
